import Mathlib

/-!
Verification of the pi-health persistence and data-shaping layers.

This file shallowly embeds the code of src/db.py, src/visualization/data_loader.py
and src/visualization/formatters.py in Lean 4 and proves properties of the
embedding.  Conventions of the embedding:

* Python floats (the metric readings) are modelled as rationals; the code never
  performs arithmetic on them, it only stores and moves them, so this choice
  only fixes an exact value domain.
* Python `None` becomes `Option.none`; missing dictionary keys become `none`
  fields of a record of options.
* Python dictionaries that are iterated in insertion order (network_data,
  metrics dicts) become association lists `List (String × _)` with unique keys
  maintained exactly the way the Python code maintains them.
* SQLite TEXT comparison is byte-wise; on the ASCII timestamp strings this is
  exactly the lexicographic order on `String.data : List Char`, which is the
  order used below.
* SQLite transactions: the Python sqlite3 module runs all statements of one
  `log_metrics` call inside one implicit transaction that only becomes visible
  at `conn.commit()`, the last statement of the call; an exception at any
  statement leaves the committed database unchanged.  The embedding therefore
  threads the committed state and applies all inserts of a call at the commit
  point; a failure oracle `fails : Nat → Bool` says which statement of the
  call (0 = metrics INSERT, 1..n = network INSERTs, n+1 = COMMIT) raises.
-/

namespace PiHealth

/-! ## Formatting helpers, from src/visualization/formatters.py -/

/-- Two-digit zero padding, used both for rendering fractional parts and
for SQLite datetime fields. -/
def pad2 (n : Nat) : String := if n < 10 then "0" ++ toString n else toString n

/-- Rendering of a nonnegative rational with two decimal places, the effect of
the Python format specifier `:.2f`.  Python rounds the binary double
half-to-even; on values whose hundredfold is an integer (all values this file
states anything about) no rounding happens at all and the two renderings
agree exactly. -/
def fmt2 (q : ℚ) : String :=
  let n : ℤ := round (q * 100)
  toString (n / 100) ++ "." ++ pad2 (n % 100).toNat

/-- Unit ladder walked by format_bytes: for unit in ['B', 'KB', 'MB', 'GB', 'TB']. -/
def unitsList : List String := ["B", "KB", "MB", "GB", "TB"]

/-- Loop body of format_bytes: if bytes_value < 1024 return it with the current
unit, else divide by 1024.0 and move to the next unit; falling off the list
returns the PB line. -/
def formatBytesGo : ℚ → List String → ℚ × String
  | v, [] => (v, "PB")
  | v, u :: rest => if v < 1024 then (v, u) else formatBytesGo (v / 1024) rest

/-- Embedding of format_bytes (formatters.py lines 5-22).  None yields "0 B". -/
def format_bytes : Option ℚ → String
  | none => "0 B"
  | some v =>
      let p := formatBytesGo v unitsList
      fmt2 p.1 ++ " " ++ p.2

/-- Index of the unit format_bytes lands on: the least i with v < 1024 ^ (i+1),
capped at 5 (the PB line). -/
def unitIdx (v : ℚ) : Nat :=
  if v < 1024 then 0
  else if v < 1024 ^ 2 then 1
  else if v < 1024 ^ 3 then 2
  else if v < 1024 ^ 4 then 3
  else if v < 1024 ^ 5 then 4
  else 5

/-- Names of the units in ladder order, PB for everything past TB. -/
def unitName : Nat → String
  | 0 => "B"
  | 1 => "KB"
  | 2 => "MB"
  | 3 => "GB"
  | 4 => "TB"
  | _ => "PB"

/-- Embedding of get_latest_values (formatters.py lines 70-86): for each series
the map keeps the last element when the series is nonempty and that element is
not None, and falls back to the sentinel 0 otherwise. -/
def get_latest_values (metrics : List (String × List (Option ℚ))) :
    List (String × ℚ) :=
  metrics.map (fun p =>
    (p.1, match p.2.getLast? with
          | some (some v) => v
          | _ => 0))

/-- Last non-absent element of a series, the quantity the specification says
get_latest_values extracts.  Written from the spec sentence, for comparison
with the code. -/
def lastPresent (l : List (Option ℚ)) : Option ℚ := (l.filterMap id).getLast?

/-! ## Data loading, from src/visualization/data_loader.py -/

/-- Association-list lookup, the model of Python `d[k]` together with the
`k in d` test on an insertion-ordered dict. -/
def alistLookup {α : Type} (s : String) : List (String × α) → Option α
  | [] => none
  | (k, v) :: rest => if k = s then some v else alistLookup s rest

/-- Embedding of filter_network_data (data_loader.py lines 92-109).  The code
first returns the input unchanged when the dict or the interface name is
falsy, then keys on membership. -/
def filter_network_data {α : Type} (nd : List (String × α)) (iface : String) :
    List (String × α) :=
  if nd.isEmpty || iface == "" then nd
  else
    match alistLookup iface nd with
    | some v => [(iface, v)]
    | none => []

/-! ## Theorems for claims C7, C8, C9 -/

/-- Sample mapping used in counterexample and witness statements below. -/
def ndSample : List (String × Nat) := [("eth0", 7)]

/-- C7 counterexample: for the requested interface name "" (a name absent from
the mapping) the code returns the whole input mapping, not the empty mapping
the claim requires. -/
theorem C7_counterexample :
    alistLookup "" ndSample = none ∧
    filter_network_data ndSample "" = ndSample ∧
    filter_network_data ndSample "" ≠ [] := by
  refine ⟨rfl, rfl, ?_⟩
  decide

/-- C7 (amended): for a non-empty requested name the filter returns exactly the
requested entry when present and the empty mapping when absent; for the empty
requested name (or when the empty-string check on the dict fires) the input
mapping is returned unchanged.  The function is pure, so the input mapping is
never mutated. -/
theorem C7_filter_network_data {α : Type} (nd : List (String × α))
    (iface : String) :
    (iface ≠ "" →
      filter_network_data nd iface =
        (match alistLookup iface nd with
         | some v => [(iface, v)]
         | none => [])) ∧
    (iface = "" → filter_network_data nd iface = nd) := by
  constructor
  · intro hne
    have hb : (iface == "") = false := by simpa using hne
    cases nd with
    | nil => simp [filter_network_data, alistLookup]
    | cons hd tl => simp [filter_network_data, hb, List.isEmpty]
  · intro he
    subst he
    cases nd with
    | nil => simp [filter_network_data]
    | cons hd tl => simp [filter_network_data, List.isEmpty]

/-- C7 witness: the amended theorem applied at concrete inputs, both to a
present and to an absent non-empty interface name. -/
theorem C7_filter_network_data_witness :
    filter_network_data ndSample "eth0" = [("eth0", 7)] ∧
    filter_network_data ndSample "wlan0" = [] ∧
    filter_network_data ndSample "" = ndSample := by
  refine ⟨?_, ?_, ?_⟩
  · exact ((C7_filter_network_data ndSample "eth0").1 (by decide)).trans (by rfl)
  · exact ((C7_filter_network_data ndSample "wlan0").1 (by decide)).trans (by rfl)
  · exact (C7_filter_network_data ndSample "").2 rfl

/-- Sample metrics dictionary whose one series ends in an absent value yet
contains an earlier present value. -/
def seriesSample : List (String × List (Option ℚ)) :=
  [("cpu_percent", [some 5, none])]

/-- C8 counterexample: on a series whose last element is absent but which has
an earlier present element, the code yields the sentinel 0 although the last
non-absent element is 5, so the result is neither the last non-absent element
nor does the sentinel appear only on empty/all-absent series. -/
theorem C8_counterexample :
    get_latest_values seriesSample = [("cpu_percent", 0)] ∧
    lastPresent [some 5, none] = some 5 ∧
    (0 : ℚ) ≠ 5 := by
  refine ⟨rfl, rfl, ?_⟩
  decide

/-- C8 (amended): get_latest_values keeps every key in order and maps each
series to its final element when that element exists and is present, and to
the sentinel 0 when the series is empty or its final element is absent; earlier
elements are never consulted. -/
theorem C8_get_latest_values (metrics : List (String × List (Option ℚ))) :
    get_latest_values metrics =
      metrics.map (fun p => (p.1, (p.2.getLast?.join).getD 0)) ∧
    (get_latest_values metrics).map Prod.fst = metrics.map Prod.fst := by
  constructor
  · unfold get_latest_values
    refine List.map_congr_left (fun p _ => ?_)
    cases h : p.2.getLast? with
    | none => simp [h, Option.join]
    | some o =>
        cases o with
        | none => simp [h, Option.join]
        | some v => simp [h, Option.join]
  · unfold get_latest_values
    simp

/-- C8 witness: the amended theorem applied at the sample dictionary. -/
theorem C8_get_latest_values_witness :
    get_latest_values seriesSample =
      seriesSample.map (fun p => (p.1, (p.2.getLast?.join).getD 0)) :=
  (C8_get_latest_values seriesSample).1

/-- Helper equalities for walking the format_bytes division ladder. -/
theorem div_pow_succ_1024 (v : ℚ) (k : Nat) :
    v / 1024 ^ k / 1024 = v / 1024 ^ (k + 1) := by
  rw [div_div, ← pow_succ]

/-- Scaled-value comparison against the next rung of the ladder. -/
theorem div_pow_lt_1024 (v : ℚ) (k : Nat) :
    v / 1024 ^ k < 1024 ↔ v < 1024 ^ (k + 1) := by
  rw [div_lt_iff₀ (by positivity), ← pow_succ']

/-- Unfolding equation for one rung of the format_bytes loop. -/
theorem formatBytesGo_cons (v : ℚ) (u : String) (rest : List String) :
    formatBytesGo v (u :: rest) =
      if v < 1024 then (v, u) else formatBytesGo (v / 1024) rest := rfl

/-- Unfolding equation for the exhausted ladder. -/
theorem formatBytesGo_nil (v : ℚ) : formatBytesGo v [] = (v, "PB") := rfl

/-- C9: format_bytes renders the three example values and the absent input as
the spec requires, and in general walks the unit ladder by repeated division by
1024, landing on the first (hence, among those reached, largest) unit whose
scaled value is below 1024 — equivalently the unit of index unitIdx v, the
least i with v < 1024 ^ (i+1), capped at the PB rung. -/
theorem C9_format_bytes (v : ℚ) :
    format_bytes none = "0 B" ∧
    format_bytes (some 500) = "500.00 B" ∧
    format_bytes (some 1536) = "1.50 KB" ∧
    format_bytes (some 1048576) = "1.00 MB" ∧
    formatBytesGo v unitsList = (v / 1024 ^ unitIdx v, unitName (unitIdx v)) ∧
    (∀ i, i < unitIdx v → 1024 ^ (i + 1) ≤ v) ∧
    (unitIdx v < 5 → v < 1024 ^ (unitIdx v + 1)) := by
  have hgo : formatBytesGo v unitsList =
      (v / 1024 ^ unitIdx v, unitName (unitIdx v)) := by
    have x1 : v / 1024 < 1024 ↔ v < 1024 ^ 2 := by
      simpa using div_pow_lt_1024 v 1
    have x2 : v / 1024 / 1024 < 1024 ↔ v < 1024 ^ 3 := by
      rw [show v / 1024 = v / 1024 ^ 1 by norm_num, div_pow_succ_1024]
      simpa using div_pow_lt_1024 v 2
    have x3 : v / 1024 / 1024 / 1024 < 1024 ↔ v < 1024 ^ 4 := by
      rw [show v / 1024 = v / 1024 ^ 1 by norm_num, div_pow_succ_1024,
        div_pow_succ_1024]
      simpa using div_pow_lt_1024 v 3
    have x4 : v / 1024 / 1024 / 1024 / 1024 < 1024 ↔ v < 1024 ^ 5 := by
      rw [show v / 1024 = v / 1024 ^ 1 by norm_num, div_pow_succ_1024,
        div_pow_succ_1024, div_pow_succ_1024]
      simpa using div_pow_lt_1024 v 4
    rw [show unitsList = ["B", "KB", "MB", "GB", "TB"] from rfl]
    by_cases h0 : v < 1024
    · rw [formatBytesGo_cons, if_pos h0]
      simp [unitIdx, h0, unitName]
    · by_cases h1 : v < 1024 ^ 2
      · have d1 : v / 1024 < 1024 := x1.mpr h1
        rw [formatBytesGo_cons, if_neg h0, formatBytesGo_cons, if_pos d1]
        simp [unitIdx, h0, h1, unitName, pow_one]
      · have d1 : ¬ v / 1024 < 1024 := fun h => h1 (x1.mp h)
        by_cases h2 : v < 1024 ^ 3
        · have d2 : v / 1024 / 1024 < 1024 := x2.mpr h2
          have e2 : v / 1024 / 1024 = v / 1024 ^ 2 := by
            rw [div_div]; norm_num
          rw [formatBytesGo_cons, if_neg h0, formatBytesGo_cons, if_neg d1,
            formatBytesGo_cons, if_pos d2, e2]
          simp [unitIdx, h0, h1, h2, unitName]
        · have d2 : ¬ v / 1024 / 1024 < 1024 := fun h => h2 (x2.mp h)
          by_cases h3 : v < 1024 ^ 4
          · have d3 : v / 1024 / 1024 / 1024 < 1024 := x3.mpr h3
            have e3 : v / 1024 / 1024 / 1024 = v / 1024 ^ 3 := by
              rw [div_div, div_div]; norm_num
            rw [formatBytesGo_cons, if_neg h0, formatBytesGo_cons, if_neg d1,
              formatBytesGo_cons, if_neg d2, formatBytesGo_cons, if_pos d3, e3]
            simp [unitIdx, h0, h1, h2, h3, unitName]
          · have d3 : ¬ v / 1024 / 1024 / 1024 < 1024 := fun h => h3 (x3.mp h)
            by_cases h4 : v < 1024 ^ 5
            · have d4 : v / 1024 / 1024 / 1024 / 1024 < 1024 := x4.mpr h4
              have e4 : v / 1024 / 1024 / 1024 / 1024 = v / 1024 ^ 4 := by
                rw [div_div, div_div, div_div]; norm_num
              rw [formatBytesGo_cons, if_neg h0, formatBytesGo_cons, if_neg d1,
                formatBytesGo_cons, if_neg d2, formatBytesGo_cons, if_neg d3,
                formatBytesGo_cons, if_pos d4, e4]
              simp [unitIdx, h0, h1, h2, h3, h4, unitName]
            · have d4 : ¬ v / 1024 / 1024 / 1024 / 1024 < 1024 :=
                fun h => h4 (x4.mp h)
              have e5 : v / 1024 / 1024 / 1024 / 1024 / 1024 = v / 1024 ^ 5 := by
                rw [div_div, div_div, div_div, div_div]; norm_num
              rw [formatBytesGo_cons, if_neg h0, formatBytesGo_cons, if_neg d1,
                formatBytesGo_cons, if_neg d2, formatBytesGo_cons, if_neg d3,
                formatBytesGo_cons, if_neg d4, formatBytesGo_nil, e5]
              simp [unitIdx, h0, h1, h2, h3, h4, unitName]
  refine ⟨rfl, ?_, ?_, ?_, hgo, ?_, ?_⟩
  · have hp : formatBytesGo 500 unitsList = (500, "B") := by
      simp [formatBytesGo, unitsList, show (500:ℚ) < 1024 by norm_num]
    have hr : round ((500:ℚ) * 100) = 50000 := by norm_num [round_eq]
    simp only [format_bytes, hp, fmt2, hr]
    decide
  · have hdiv : (1536:ℚ) / 1024 = 3 / 2 := by norm_num
    have hp : formatBytesGo 1536 unitsList = (3 / 2, "KB") := by
      simp [formatBytesGo, unitsList, show ¬ (1536:ℚ) < 1024 by norm_num, hdiv,
        show (3:ℚ) / 2 < 1024 by norm_num]
    have hr : round ((3:ℚ) / 2 * 100) = 150 := by norm_num [round_eq]
    simp only [format_bytes, hp, fmt2, hr]
    decide
  · have hd1 : (1048576:ℚ) / 1024 = 1024 := by norm_num
    have hd2 : (1024:ℚ) / 1024 = 1 := by norm_num
    have hp : formatBytesGo 1048576 unitsList = (1, "MB") := by
      simp [formatBytesGo, unitsList, show ¬ (1048576:ℚ) < 1024 by norm_num,
        hd1, show ¬ (1024:ℚ) < 1024 by norm_num, hd2,
        show (1:ℚ) < 1024 by norm_num]
    have hr : round ((1:ℚ) * 100) = 100 := by norm_num [round_eq]
    simp only [format_bytes, hp, fmt2, hr]
    decide
  · intro i hi
    have : ∀ j : Nat, ¬ v < 1024 ^ (j + 1) → 1024 ^ (j + 1) ≤ v :=
      fun j h => not_lt.mp h
    unfold unitIdx at hi
    split_ifs at hi with h0 h1 h2 h3 h4
    · omega
    · interval_cases i
      exact this 0 (by simpa using h0)
    · interval_cases i
      · exact this 0 (by simpa using h0)
      · exact this 1 h1
    · interval_cases i
      · exact this 0 (by simpa using h0)
      · exact this 1 h1
      · exact this 2 h2
    · interval_cases i
      · exact this 0 (by simpa using h0)
      · exact this 1 h1
      · exact this 2 h2
      · exact this 3 h3
    · interval_cases i
      · exact this 0 (by simpa using h0)
      · exact this 1 h1
      · exact this 2 h2
      · exact this 3 h3
      · exact this 4 h4
  · intro hlt
    unfold unitIdx at hlt ⊢
    split_ifs at hlt ⊢ with h0 h1 h2 h3 h4
    · simpa using h0
    · exact h1
    · exact h2
    · exact h3
    · exact h4
    · omega

/-- C9 witness: the general characterization applied at the concrete value
1536, whose unit index is 1 (KB). -/
theorem C9_format_bytes_witness :
    (1024:ℚ) ^ (0 + 1) ≤ 1536 ∧ (1536:ℚ) < 1024 ^ (unitIdx 1536 + 1) := by
  constructor
  · exact (C9_format_bytes 1536).2.2.2.2.2.1 0 (by norm_num [unitIdx])
  · exact (C9_format_bytes 1536).2.2.2.2.2.2 (by norm_num [unitIdx])

/-! ## The metrics store, from src/db.py -/

/-- Embedding of the Metrics value object (db.py lines 118-243): the required
fields and the three optional readings.  The float() coercions of __init__ are
identities on our exact value domain. -/
structure Metrics where
  timestamp : String
  cpu_percent : ℚ
  memory_percent : ℚ
  disk_percent : ℚ
  uptime : ℚ
  temperature : Option ℚ
  cpu_frequency : Option ℚ
  voltage : Option ℚ
deriving DecidableEq

/-- One interface's stats dictionary as passed to log_metrics: every counter
key may be missing (Python dict .get with default 0). -/
structure RawStats where
  bytes_sent : Option Int
  bytes_recv : Option Int
  packets_sent : Option Int
  packets_recv : Option Int
  errin : Option Int
  errout : Option Int
  dropin : Option Int
  dropout : Option Int
deriving DecidableEq

/-- Embedding of the NetworkStats row object (db.py lines 20-116) as stored in
the network_stats table. -/
structure NetworkStats where
  metric_id : Nat
  interface : String
  bytes_sent : Int
  bytes_recv : Int
  packets_sent : Int
  packets_recv : Int
  errin : Int
  errout : Int
  dropin : Int
  dropout : Int
deriving DecidableEq

/-- One committed row of the health_metrics table: surrogate key plus the
Metrics fields. -/
structure MetricRow where
  id : Nat
  timestamp : String
  cpu_percent : ℚ
  memory_percent : ℚ
  disk_percent : ℚ
  uptime : ℚ
  temperature : Option ℚ
  cpu_frequency : Option ℚ
  voltage : Option ℚ
deriving DecidableEq

/-- Committed contents of the SQLite file: both tables plus the AUTOINCREMENT
counter of health_metrics (SQLite row ids start at 1, so a fresh database has
nextId 1 and nextId is never 0 on a real database). -/
structure DBState where
  metricRows : List MetricRow
  netRows : List NetworkStats
  nextId : Nat
deriving DecidableEq

/-- The freshly created database. -/
def emptyDB : DBState := ⟨[], [], 1⟩

/-- Snapshot row as inserted by log_metrics with cursor.lastrowid = id. -/
def mkMetricRow (id : Nat) (m : Metrics) : MetricRow :=
  ⟨id, m.timestamp, m.cpu_percent, m.memory_percent, m.disk_percent, m.uptime,
   m.temperature, m.cpu_frequency, m.voltage⟩

/-- Embedding of the NetworkStats construction inside log_metrics (db.py lines
316-327): every missing counter key defaults to 0 via stats.get(key, 0). -/
def mkNetworkStats (mid : Nat) (iface : String) (st : RawStats) : NetworkStats :=
  ⟨mid, iface, st.bytes_sent.getD 0, st.bytes_recv.getD 0,
   st.packets_sent.getD 0, st.packets_recv.getD 0, st.errin.getD 0,
   st.errout.getD 0, st.dropin.getD 0, st.dropout.getD 0⟩

/-- Network rows a log_metrics call stages for insertion: none when
network_data is None or the empty dict, or when the snapshot row id is falsy
(db.py line 314, `if network_data and metrics.id`); otherwise one row per
interface in dict insertion order. -/
def netRowsOf (mid : Nat) (nd : Option (List (String × RawStats))) :
    List NetworkStats :=
  match nd with
  | none => []
  | some l => if l.isEmpty || mid == 0 then []
              else l.map (fun p => mkNetworkStats mid p.1 p.2)

/-- Embedding of HealthDatabase.log_metrics (db.py lines 286-344).  The call
executes the snapshot INSERT (statement 0), one network INSERT per staged row
(statements 1..n) and the COMMIT (statement n+1) inside one implicit sqlite3
transaction; `fails i` says whether statement i raises.  Any raise is caught,
the call returns False, and the uncommitted transaction is rolled back when
the abandoned connection is collected, so the committed state is unchanged;
only the final COMMIT publishes all staged rows at once. -/
def log_metrics (fails : Nat → Bool) (s : DBState) (m : Metrics)
    (nd : Option (List (String × RawStats))) : Bool × DBState :=
  let nets := netRowsOf s.nextId nd
  if fails 0 || (List.range nets.length).any (fun i => fails (i + 1)) ||
      fails (nets.length + 1) then
    (false, s)
  else
    (true, ⟨s.metricRows ++ [mkMetricRow s.nextId m], s.netRows ++ nets,
            s.nextId + 1⟩)

/-- Timestamp order used by every query: SQLite compares TEXT values byte by
byte, which on these ASCII strings is the lexicographic order on the
character list.  Descending variant, for ORDER BY timestamp DESC. -/
def tsDescRel (a b : MetricRow) : Prop := b.timestamp.data ≤ a.timestamp.data

/-- Ascending variant, for ORDER BY timestamp. -/
def tsAscRel (a b : MetricRow) : Prop := a.timestamp.data ≤ b.timestamp.data

instance : DecidableRel tsDescRel := fun a b =>
  inferInstanceAs (Decidable (b.timestamp.data ≤ a.timestamp.data))

instance : DecidableRel tsAscRel := fun a b =>
  inferInstanceAs (Decidable (a.timestamp.data ≤ b.timestamp.data))

instance : IsTotal MetricRow tsDescRel :=
  ⟨fun a b => le_total b.timestamp.data a.timestamp.data⟩

instance : IsTotal MetricRow tsAscRel :=
  ⟨fun a b => le_total a.timestamp.data b.timestamp.data⟩

instance : IsTrans MetricRow tsDescRel :=
  ⟨fun _ _ _ hab hbc => le_trans hbc hab⟩

instance : IsTrans MetricRow tsAscRel :=
  ⟨fun _ _ _ hab hbc => le_trans hab hbc⟩

/-- Query result row: one snapshot dict together with its network_stats list
(db.py lines 367-376, the per-metric secondary query). -/
structure SnapRecord where
  metric : MetricRow
  network_stats : List NetworkStats
deriving DecidableEq

/-- Secondary query attaching all network rows with matching metric_id. -/
def attachNet (s : DBState) (m : MetricRow) : SnapRecord :=
  ⟨m, s.netRows.filter (fun n => n.metric_id == m.id)⟩

/-- Embedding of HealthDatabase.get_recent_metrics (db.py lines 346-380):
ORDER BY timestamp DESC LIMIT ?, then one network query per row. -/
def get_recent_metrics (s : DBState) (limit : Nat) : List SnapRecord :=
  ((s.metricRows.insertionSort tsDescRel).take limit).map (attachNet s)

/-- Embedding of HealthDatabase.get_metrics_by_timespan (db.py lines 382-416).
The SQL filter is `timestamp > datetime('now', '-' || hours || ' hours')`: the
engine renders the cutoff instant as TEXT and compares byte-wise.  The cutoff
string is the query parameter here; rendering of the cutoff from a clock
reading is modelled separately below. -/
def get_metrics_by_timespan (s : DBState) (cutoff : String) : List SnapRecord :=
  ((s.metricRows.filter (fun m => decide (cutoff.data < m.timestamp.data))).insertionSort
      tsAscRel).map (attachNet s)

/-- Interface query rows: the joined network row plus the parent timestamp
column selected alongside it. -/
def ifaceRowAscRel (a b : NetworkStats × String) : Prop :=
  a.2.data ≤ b.2.data

instance : DecidableRel ifaceRowAscRel := fun a b =>
  inferInstanceAs (Decidable (a.2.data ≤ b.2.data))

instance : IsTotal (NetworkStats × String) ifaceRowAscRel :=
  ⟨fun a b => le_total a.2.data b.2.data⟩

instance : IsTrans (NetworkStats × String) ifaceRowAscRel :=
  ⟨fun _ _ _ hab hbc => le_trans hab hbc⟩

/-- Embedding of HealthDatabase.get_network_stats_for_interface (db.py lines
418-444): join network rows to their parent snapshot, keep the requested
interface inside the window, order by the parent timestamp. -/
def get_network_stats_for_interface (s : DBState) (iface : String)
    (cutoff : String) : List (NetworkStats × String) :=
  (s.netRows.flatMap (fun n =>
    s.metricRows.filterMap (fun m =>
      if n.metric_id == m.id && n.interface == iface &&
          decide (cutoff.data < m.timestamp.data) then
        some (n, m.timestamp)
      else none))).insertionSort ifaceRowAscRel

/-! ## Clock rendering, from src/monitor.py line 106 and SQLite datetime() -/

/-- Civil clock reading, precise to the second. -/
structure UTCTime where
  year : Nat
  month : Nat
  day : Nat
  hour : Nat
  minute : Nat
  second : Nat
deriving DecidableEq

/-- Zero-padded four-digit year. -/
def pad4 (n : Nat) : String :=
  if n < 10 then "000" ++ toString n
  else if n < 100 then "00" ++ toString n
  else if n < 1000 then "0" ++ toString n
  else toString n

/-- The TEXT produced by SQLite datetime(): `YYYY-MM-DD HH:MM:SS`, with a
space between date and time.  datetime('now', '-0 hours') renders the current
instant itself in this shape. -/
def renderSqliteDatetime (t : UTCTime) : String :=
  pad4 t.year ++ "-" ++ pad2 t.month ++ "-" ++ pad2 t.day ++ " " ++
    pad2 t.hour ++ ":" ++ pad2 t.minute ++ ":" ++ pad2 t.second

/-- The TEXT produced by Python datetime.isoformat() on a whole-second
datetime, the shape the monitor writes into the timestamp column:
`YYYY-MM-DDTHH:MM:SS`, with a capital T between date and time. -/
def renderIsoTimestamp (t : UTCTime) : String :=
  pad4 t.year ++ "-" ++ pad2 t.month ++ "-" ++ pad2 t.day ++ "T" ++
    pad2 t.hour ++ ":" ++ pad2 t.minute ++ ":" ++ pad2 t.second

/-! ## Query membership lemmas -/

/-- Rows returned by get_recent_metrics are stored rows carrying exactly their
own network rows. -/
theorem mem_get_recent_metrics {s : DBState} {k : Nat} {r : SnapRecord}
    (h : r ∈ get_recent_metrics s k) :
    r.metric ∈ s.metricRows ∧
    r.network_stats = s.netRows.filter (fun n => n.metric_id == r.metric.id) := by
  unfold get_recent_metrics at h
  rcases List.mem_map.mp h with ⟨mr, hmr, he⟩
  have h1 : mr ∈ s.metricRows.insertionSort tsDescRel :=
    List.take_subset _ _ hmr
  have h2 : mr ∈ s.metricRows :=
    (List.perm_insertionSort tsDescRel s.metricRows).subset h1
  subst he
  exact ⟨h2, rfl⟩

/-- Rows returned by get_metrics_by_timespan are stored rows beating the
cutoff, carrying exactly their own network rows. -/
theorem mem_get_metrics_by_timespan {s : DBState} {cutoff : String}
    {r : SnapRecord} (h : r ∈ get_metrics_by_timespan s cutoff) :
    r.metric ∈ s.metricRows ∧ cutoff.data < r.metric.timestamp.data ∧
    r.network_stats = s.netRows.filter (fun n => n.metric_id == r.metric.id) := by
  unfold get_metrics_by_timespan at h
  rcases List.mem_map.mp h with ⟨mr, hmr, he⟩
  have h1 : mr ∈ s.metricRows.filter
      (fun m => decide (cutoff.data < m.timestamp.data)) :=
    (List.perm_insertionSort tsAscRel _).subset hmr
  have h2 := List.mem_filter.mp h1
  subst he
  exact ⟨h2.1, of_decide_eq_true h2.2, rfl⟩

/-- Every network row staged by a call carries the snapshot id of that call. -/
theorem metric_id_of_mem_netRowsOf {mid : Nat}
    {nd : Option (List (String × RawStats))} {n : NetworkStats}
    (h : n ∈ netRowsOf mid nd) : n.metric_id = mid := by
  cases nd with
  | none => simp [netRowsOf] at h
  | some l =>
      cases hc : l.isEmpty || mid == 0 with
      | true => simp [netRowsOf, hc] at h
      | false =>
          simp only [netRowsOf, hc, Bool.false_eq_true, if_false] at h
          rcases List.mem_map.mp h with ⟨p, _, he⟩
          rw [← he]
          rfl

/-! ## Sample data shared by the concrete statements below -/

/-- Sample metrics value with one optional field present and two absent. -/
def mSample : Metrics :=
  ⟨"2023-01-02T12:00:00", 25, 40, 60, 3600, none, some 1500, none⟩

/-- Sample interface counters with half the keys missing. -/
def statsSample : RawStats :=
  ⟨some 1000, some 2000, some 10, some 20, none, none, none, none⟩

/-- Sample network_data mapping for one interface. -/
def ndNetSample : Option (List (String × RawStats)) := some [("eth0", statsSample)]

/-- Failure oracle of the run in which no statement raises. -/
def noFail : Nat → Bool := fun _ => false

/-- Failure oracle of the run in which the very first statement raises. -/
def allFail : Nat → Bool := fun _ => true

/-! ## Theorems for claims C1 and C10 -/

/-- C1: log_metrics is all-or-nothing.  When any statement of the call raises,
the call returns False and the committed state — hence every subsequent
query — is exactly as before the call; when no statement raises, the call
returns True, the snapshot row and all its network rows are committed
together, and the full record is visible to a subsequent get_recent_metrics
query. -/
theorem C1_log_metrics_atomic (fails : Nat → Bool) (s : DBState) (m : Metrics)
    (nd : Option (List (String × RawStats)))
    (hnet : ∀ n ∈ s.netRows, n.metric_id ≠ s.nextId) :
    ((log_metrics fails s m nd).1 = false →
      (log_metrics fails s m nd).2 = s ∧
      ∀ k, get_recent_metrics (log_metrics fails s m nd).2 k =
        get_recent_metrics s k) ∧
    ((log_metrics fails s m nd).1 = true →
      (log_metrics fails s m nd).2 =
        ⟨s.metricRows ++ [mkMetricRow s.nextId m],
         s.netRows ++ netRowsOf s.nextId nd, s.nextId + 1⟩ ∧
      (⟨mkMetricRow s.nextId m, netRowsOf s.nextId nd⟩ : SnapRecord) ∈
        get_recent_metrics (log_metrics fails s m nd).2
          (log_metrics fails s m nd).2.metricRows.length) := by
  unfold log_metrics
  cases hc : (fails 0 || (List.range (netRowsOf s.nextId nd).length).any
      (fun i => fails (i + 1)) || fails ((netRowsOf s.nextId nd).length + 1)) with
  | true =>
      rw [if_pos hc]
      constructor
      · intro _
        refine ⟨rfl, ?_⟩
        intro k
        rfl
      · intro h
        exact nomatch h
  | false =>
      rw [if_neg (by simp [hc])]
      constructor
      · intro h
        exact nomatch h
      intro _
      refine ⟨rfl, ?_⟩
      set s2 : DBState :=
        ⟨s.metricRows ++ [mkMetricRow s.nextId m],
         s.netRows ++ netRowsOf s.nextId nd, s.nextId + 1⟩ with hs2
      have hrow : mkMetricRow s.nextId m ∈ s2.metricRows := by
        simp [hs2]
      have hattach : attachNet s2 (mkMetricRow s.nextId m) =
          ⟨mkMetricRow s.nextId m, netRowsOf s.nextId nd⟩ := by
        unfold attachNet
        have hid : (mkMetricRow s.nextId m).id = s.nextId := rfl
        have hold : s.netRows.filter
            (fun n => n.metric_id == (mkMetricRow s.nextId m).id) = [] := by
          rw [List.filter_eq_nil_iff]
          intro n hn
          simpa [hid] using hnet n hn
        have hnew : (netRowsOf s.nextId nd).filter
            (fun n => n.metric_id == (mkMetricRow s.nextId m).id) =
            netRowsOf s.nextId nd := by
          rw [List.filter_eq_self]
          intro n hn
          simp [hid, metric_id_of_mem_netRowsOf hn]
        simp [hs2, List.filter_append, hold, hnew]
      unfold get_recent_metrics
      have hlen : s2.metricRows.length =
          (s2.metricRows.insertionSort tsDescRel).length :=
        (List.length_insertionSort _ _).symm
      rw [hlen, List.take_length]
      rw [← hattach]
      exact List.mem_map_of_mem (attachNet s2)
        ((List.perm_insertionSort tsDescRel s2.metricRows).mem_iff.mpr hrow)

/-- C1 witness: the theorem applied to the empty database, once with the
always-raising oracle and once with the never-raising oracle. -/
theorem C1_log_metrics_atomic_witness :
    (log_metrics allFail emptyDB mSample ndNetSample).2 = emptyDB ∧
    (log_metrics noFail emptyDB mSample ndNetSample).2 =
      ⟨[mkMetricRow 1 mSample], netRowsOf 1 ndNetSample, 2⟩ := by
  constructor
  · exact ((C1_log_metrics_atomic allFail emptyDB mSample ndNetSample
      (by simp [emptyDB])).1 (by decide)).1
  · have h := ((C1_log_metrics_atomic noFail emptyDB mSample ndNetSample
      (by simp [emptyDB])).2 (by decide)).1
    simpa [emptyDB] using h

/-- Stats dictionary with every counter key missing. -/
def emptyStats : RawStats := ⟨none, none, none, none, none, none, none, none⟩

/-- C10: a log_metrics call whose interface stats dictionary omits counter
keys still succeeds (in a run where no statement raises), the row is stored,
every omitted counter is stored as 0, and the stored row is identical to the
row produced by a dictionary carrying the explicit values stats.get(k, 0) —
an omitted counter is indistinguishable from a measured zero. -/
theorem C10_missing_counters (s : DBState) (m : Metrics) (iface : String)
    (st : RawStats) (hnz : s.nextId ≠ 0) :
    (log_metrics noFail s m (some [(iface, st)])).1 = true ∧
    (log_metrics noFail s m (some [(iface, st)])).2.netRows =
      s.netRows ++ [mkNetworkStats s.nextId iface st] ∧
    (st.bytes_sent = none → (mkNetworkStats s.nextId iface st).bytes_sent = 0) ∧
    (st.bytes_recv = none → (mkNetworkStats s.nextId iface st).bytes_recv = 0) ∧
    (st.packets_sent = none →
      (mkNetworkStats s.nextId iface st).packets_sent = 0) ∧
    (st.packets_recv = none →
      (mkNetworkStats s.nextId iface st).packets_recv = 0) ∧
    (st.errin = none → (mkNetworkStats s.nextId iface st).errin = 0) ∧
    (st.errout = none → (mkNetworkStats s.nextId iface st).errout = 0) ∧
    (st.dropin = none → (mkNetworkStats s.nextId iface st).dropin = 0) ∧
    (st.dropout = none → (mkNetworkStats s.nextId iface st).dropout = 0) ∧
    mkNetworkStats s.nextId iface st =
      mkNetworkStats s.nextId iface
        ⟨some (st.bytes_sent.getD 0), some (st.bytes_recv.getD 0),
         some (st.packets_sent.getD 0), some (st.packets_recv.getD 0),
         some (st.errin.getD 0), some (st.errout.getD 0),
         some (st.dropin.getD 0), some (st.dropout.getD 0)⟩ := by
  have hb : (s.nextId == 0) = false := by simpa using hnz
  have hnet : netRowsOf s.nextId (some [(iface, st)]) =
      [mkNetworkStats s.nextId iface st] := by
    simp [netRowsOf, hb, List.isEmpty]
  refine ⟨?_, ?_, ?_, ?_, ?_, ?_, ?_, ?_, ?_, ?_, ?_⟩
  · simp [log_metrics, noFail]
  · simp [log_metrics, noFail, hnet]
  all_goals try (intro h; simp [mkNetworkStats, h])
  · simp [mkNetworkStats]

/-- C10 witness: the theorem applied to the empty database and an
all-keys-missing stats dictionary. -/
theorem C10_missing_counters_witness :
    (log_metrics noFail emptyDB mSample (some [("eth0", emptyStats)])).1 =
      true ∧
    (mkNetworkStats 1 "eth0" emptyStats).bytes_sent = 0 ∧
    (mkNetworkStats 1 "eth0" emptyStats).dropout = 0 := by
  have h := C10_missing_counters emptyDB mSample "eth0" emptyStats (by decide)
  exact ⟨h.1, h.2.2.1 rfl, h.2.2.2.2.2.2.2.2.2.1 rfl⟩

/-! ## Theorems for claims C4 and C5 -/

/-- Sample stored snapshot row, the older of the two. -/
def rowA : MetricRow :=
  ⟨1, "2023-01-01T12:00:00", 25, 40, 60, 3600, none, none, none⟩

/-- Sample stored snapshot row, the newer of the two. -/
def rowB : MetricRow :=
  ⟨2, "2023-01-02T12:00:00", 26, 41, 61, 3700, some 50, none, some 1⟩

/-- Network row of the older snapshot. -/
def netA : NetworkStats := ⟨1, "eth0", 1000, 2000, 10, 20, 1, 2, 3, 4⟩

/-- Network row of the newer snapshot. -/
def netB : NetworkStats := ⟨2, "wlan0", 5000, 6000, 50, 60, 5, 6, 7, 8⟩

/-- Sample committed database with two snapshots, one network row each. -/
def dbSample : DBState := ⟨[rowA, rowB], [netA, netB], 3⟩

/-- C4: get_recent_metrics returns exactly min(limit, total) rows, ordered by
timestamp descending (byte-wise TEXT order, most recent first), each carrying
as network_stats exactly the network rows with its metric_id (possibly the
empty list); limit 0 yields the empty result rather than an error. -/
theorem C4_get_recent_metrics (s : DBState) (k : Nat) :
    (get_recent_metrics s k).length = min k s.metricRows.length ∧
    ((get_recent_metrics s k).map (fun r => r.metric.timestamp.data)).Pairwise
      (fun a b => b ≤ a) ∧
    (∀ r ∈ get_recent_metrics s k,
      r.metric ∈ s.metricRows ∧
      r.network_stats =
        s.netRows.filter (fun n => n.metric_id == r.metric.id)) ∧
    get_recent_metrics s 0 = [] := by
  refine ⟨?_, ?_, ?_, ?_⟩
  · unfold get_recent_metrics
    rw [List.length_map, List.length_take, List.length_insertionSort]
  · have hs : (s.metricRows.insertionSort tsDescRel).Pairwise tsDescRel :=
      List.sorted_insertionSort tsDescRel s.metricRows
    have ht : ((s.metricRows.insertionSort tsDescRel).take k).Pairwise
        tsDescRel :=
      hs.sublist (List.take_sublist k _)
    unfold get_recent_metrics
    rw [List.map_map]
    exact List.pairwise_map.mpr ht
  · intro r hr
    exact mem_get_recent_metrics hr
  · unfold get_recent_metrics
    simp

/-- C4 witness: the theorem applied to the two-row sample database with
limit 1; the returned row is the newer snapshot carrying its network row. -/
theorem C4_get_recent_metrics_witness :
    (get_recent_metrics dbSample 1).length = min 1 dbSample.metricRows.length ∧
    (⟨rowB, [netB]⟩ : SnapRecord).metric ∈ dbSample.metricRows ∧
    get_recent_metrics dbSample 0 = [] := by
  refine ⟨(C4_get_recent_metrics dbSample 1).1, ?_, ?_⟩
  · exact ((C4_get_recent_metrics dbSample 1).2.2.1 ⟨rowB, [netB]⟩ (by decide)).1
  · exact (C4_get_recent_metrics dbSample 0).2.2.2

/-- Rows returned by the interface query carry the requested interface, their
parent snapshot's timestamp, and beat the cutoff. -/
theorem mem_get_network_stats_for_interface {s : DBState}
    {iface cutoff : String} {p : NetworkStats × String}
    (h : p ∈ get_network_stats_for_interface s iface cutoff) :
    p.1 ∈ s.netRows ∧ p.1.interface = iface ∧
    ∃ mrow ∈ s.metricRows, mrow.id = p.1.metric_id ∧ mrow.timestamp = p.2 ∧
      cutoff.data < p.2.data := by
  unfold get_network_stats_for_interface at h
  have h1 := (List.perm_insertionSort ifaceRowAscRel _).subset h
  rcases List.mem_flatMap.mp h1 with ⟨n, hn, hp⟩
  rcases List.mem_filterMap.mp hp with ⟨mrow, hm, he⟩
  by_cases hcond : (n.metric_id == mrow.id && n.interface == iface &&
      decide (cutoff.data < mrow.timestamp.data)) = true
  · rw [if_pos hcond] at he
    rcases Option.some_inj.mp he
    simp only [Bool.and_eq_true, beq_iff_eq, decide_eq_true_eq] at hcond
    exact ⟨hn, hcond.1.2, mrow, hm, hcond.1.1.symm, rfl, hcond.2⟩
  · rw [if_neg hcond] at he
    exact absurd he (by simp)

/-- C5: the interface query returns only rows whose interface equals the
requested name, each annotated with the timestamp of a parent snapshot that
beats the cutoff, in ascending timestamp order; a name whose rows all hang
off snapshots outside the window — in particular a name matching no stored
network row at all — yields the empty result rather than an error. -/
theorem C5_get_network_stats_for_interface (s : DBState)
    (iface cutoff : String) :
    (∀ p ∈ get_network_stats_for_interface s iface cutoff,
      p.1.interface = iface) ∧
    (∀ p ∈ get_network_stats_for_interface s iface cutoff,
      ∃ mrow ∈ s.metricRows, mrow.id = p.1.metric_id ∧ mrow.timestamp = p.2 ∧
        cutoff.data < p.2.data) ∧
    ((get_network_stats_for_interface s iface cutoff).map
        (fun p => p.2.data)).Pairwise (fun a b => a ≤ b) ∧
    ((∀ n ∈ s.netRows, n.interface = iface →
        ∀ mrow ∈ s.metricRows, mrow.id = n.metric_id →
          ¬ cutoff.data < mrow.timestamp.data) →
      get_network_stats_for_interface s iface cutoff = []) := by
  refine ⟨?_, ?_, ?_, ?_⟩
  · intro p hp
    exact (mem_get_network_stats_for_interface hp).2.1
  · intro p hp
    rcases (mem_get_network_stats_for_interface hp).2.2 with
      ⟨mrow, hm, hid, hts, hcut⟩
    exact ⟨mrow, hm, hid, hts, hcut⟩
  · have hs := List.sorted_insertionSort ifaceRowAscRel
      (s.netRows.flatMap (fun n =>
        s.metricRows.filterMap (fun m =>
          if n.metric_id == m.id && n.interface == iface &&
              decide (cutoff.data < m.timestamp.data) then
            some (n, m.timestamp)
          else none)))
    unfold get_network_stats_for_interface
    exact List.pairwise_map.mpr hs
  · intro hnone
    have hempty : get_network_stats_for_interface s iface cutoff = [] := by
      rcases hres : get_network_stats_for_interface s iface cutoff with _ | ⟨p, rest⟩
      · rfl
      · have hp : p ∈ get_network_stats_for_interface s iface cutoff := by
          rw [hres]; exact List.mem_cons_self p rest
        have hmem := mem_get_network_stats_for_interface hp
        rcases hmem.2.2 with ⟨mrow, hm, hid, hts, hcut⟩
        have hnot := hnone p.1 hmem.1 hmem.2.1 mrow hm hid
        rw [hts] at hnot
        exact absurd hcut hnot
    exact hempty

/-- C5 witness: the theorem applied to the sample database, showing the eth0
row annotation with its in-window parent, the empty result for an unknown
name, and the empty result for eth0 against a cutoff beyond every stored
snapshot (present in the table, absent from the window). -/
theorem C5_get_network_stats_for_interface_witness :
    (∃ mrow ∈ dbSample.metricRows,
      mrow.id = netA.metric_id ∧ mrow.timestamp = rowA.timestamp ∧
        ("" : String).data < rowA.timestamp.data) ∧
    get_network_stats_for_interface dbSample "nosuch" "" = [] ∧
    get_network_stats_for_interface dbSample "eth0"
      "2023-12-31 00:00:00" = [] := by
  refine ⟨?_, ?_, ?_⟩
  · exact (C5_get_network_stats_for_interface dbSample "eth0" "").2.1
      (netA, rowA.timestamp) (by decide)
  · exact (C5_get_network_stats_for_interface dbSample "nosuch" "").2.2.2
      (by decide)
  · exact (C5_get_network_stats_for_interface dbSample "eth0"
      "2023-12-31 00:00:00").2.2.2 (by decide)

/-! ## Theorem for claim C2 -/

/-- C2: a snapshot inserted by a successful log_metrics call comes back from
get_recent_metrics and from get_metrics_by_timespan with every required field
exactly equal to the inserted value and every optional field equal to the
inserted option — present exactly when it was present at insert.  The
hypothesis hfresh is the AUTOINCREMENT invariant: no committed row already
carries the id about to be assigned. -/
theorem C2_round_trip (fails : Nat → Bool) (s : DBState) (m : Metrics)
    (nd : Option (List (String × RawStats))) (k : Nat) (cutoff : String)
    (hfresh : ∀ r ∈ s.metricRows, r.id ≠ s.nextId)
    (hok : (log_metrics fails s m nd).1 = true) :
    (∀ r ∈ get_recent_metrics (log_metrics fails s m nd).2 k,
      r.metric.id = s.nextId →
        r.metric.timestamp = m.timestamp ∧
        r.metric.cpu_percent = m.cpu_percent ∧
        r.metric.memory_percent = m.memory_percent ∧
        r.metric.disk_percent = m.disk_percent ∧
        r.metric.uptime = m.uptime ∧
        r.metric.temperature = m.temperature ∧
        r.metric.cpu_frequency = m.cpu_frequency ∧
        r.metric.voltage = m.voltage) ∧
    (∀ r ∈ get_metrics_by_timespan (log_metrics fails s m nd).2 cutoff,
      r.metric.id = s.nextId →
        r.metric.timestamp = m.timestamp ∧
        r.metric.cpu_percent = m.cpu_percent ∧
        r.metric.memory_percent = m.memory_percent ∧
        r.metric.disk_percent = m.disk_percent ∧
        r.metric.uptime = m.uptime ∧
        r.metric.temperature = m.temperature ∧
        r.metric.cpu_frequency = m.cpu_frequency ∧
        r.metric.voltage = m.voltage) := by
  have hstate : (log_metrics fails s m nd).2.metricRows =
      s.metricRows ++ [mkMetricRow s.nextId m] := by
    unfold log_metrics at hok ⊢
    cases hc : (fails 0 || (List.range (netRowsOf s.nextId nd).length).any
        (fun i => fails (i + 1)) ||
        fails ((netRowsOf s.nextId nd).length + 1)) with
    | true =>
        rw [if_pos hc] at hok
        exact nomatch hok
    | false =>
        rw [if_neg (by simp [hc])]
  have hunique : ∀ row ∈ (log_metrics fails s m nd).2.metricRows,
      row.id = s.nextId → row = mkMetricRow s.nextId m := by
    intro row hrow hid
    rw [hstate] at hrow
    rcases List.mem_append.mp hrow with hold | hnewm
    · exact absurd hid (hfresh row hold)
    · simpa using hnewm
  constructor
  · intro r hr hid
    have hmem := (mem_get_recent_metrics hr).1
    have heq := hunique r.metric hmem hid
    rw [heq]
    exact ⟨rfl, rfl, rfl, rfl, rfl, rfl, rfl, rfl⟩
  · intro r hr hid
    have hmem := (mem_get_metrics_by_timespan hr).1
    have heq := hunique r.metric hmem hid
    rw [heq]
    exact ⟨rfl, rfl, rfl, rfl, rfl, rfl, rfl, rfl⟩

/-- The record committed by the sample insertion into the empty database. -/
def snapNew : SnapRecord := ⟨mkMetricRow 1 mSample, netRowsOf 1 ndNetSample⟩

/-- C2 witness: the round trip evaluated on the empty database and the sample
metrics value; the returned row carries the inserted timestamp and the absent
temperature stays absent. -/
theorem C2_round_trip_witness :
    snapNew.metric.timestamp = mSample.timestamp ∧
    snapNew.metric.temperature = mSample.temperature ∧
    snapNew.metric.cpu_frequency = mSample.cpu_frequency := by
  have h := (C2_round_trip noFail emptyDB mSample ndNetSample 10 ""
    (by simp [emptyDB]) (by decide)).1 snapNew (by decide) (by decide)
  exact ⟨h.1, h.2.2.2.2.2.1, h.2.2.2.2.2.2.1⟩

/-! ## Claim C3: the time-window filter -/

/-- Snapshot row as the monitor writes it: timestamp from
datetime.now().isoformat(), with the capital T separator (monitor.py line
106), six hours before the clock reading used in the query below. -/
def rowOld : MetricRow :=
  ⟨1, renderIsoTimestamp ⟨2023, 1, 1, 6, 0, 0⟩, 25, 40, 60, 3600,
   none, none, none⟩

/-- Database holding only that six-hour-old snapshot. -/
def dbOld : DBState := ⟨[rowOld], [], 2⟩

/-- C3 evidence of the code bug: with hours = 0 the SQL cutoff
datetime('now', '-0 hours') is the current instant rendered with a space
separator; the stored isoformat timestamp of a six-hour-old snapshot still
compares above it byte-wise, because the T at offset 10 beats the space, so
get_metrics_by_timespan returns the old row where the claim (and the
function's own docstring) require an empty result. -/
theorem C3_hours_zero_returns_old_row :
    renderIsoTimestamp ⟨2023, 1, 1, 6, 0, 0⟩ = "2023-01-01T06:00:00" ∧
    renderSqliteDatetime ⟨2023, 1, 1, 12, 0, 0⟩ = "2023-01-01 12:00:00" ∧
    (renderSqliteDatetime ⟨2023, 1, 1, 12, 0, 0⟩).data <
      rowOld.timestamp.data ∧
    get_metrics_by_timespan dbOld
      (renderSqliteDatetime ⟨2023, 1, 1, 12, 0, 0⟩) = [⟨rowOld, []⟩] ∧
    get_metrics_by_timespan dbOld
      (renderSqliteDatetime ⟨2023, 1, 1, 12, 0, 0⟩) ≠ [] := by
  refine ⟨by decide, by decide, by decide, by decide, by decide⟩

/-! ## The series reshaper, from src/visualization/data_loader.py lines 8-90 -/

/-- Per-interface column store built by load_data: the timestamps at which the
interface was observed plus one aligned sequence per counter. -/
structure IfaceSeries where
  timestamps : List String
  bytes_sent : List Int
  bytes_recv : List Int
  packets_sent : List Int
  packets_recv : List Int
  errin : List Int
  errout : List Int
  dropin : List Int
  dropout : List Int
deriving DecidableEq

/-- Freshly initialized interface entry (data_loader.py lines 56-67). -/
def emptyIfaceSeries : IfaceSeries := ⟨[], [], [], [], [], [], [], [], []⟩

/-- One network stat row appended to an interface entry (lines 69-78). -/
def appendStat (d : IfaceSeries) (t : String) (n : NetworkStats) : IfaceSeries :=
  ⟨d.timestamps ++ [t], d.bytes_sent ++ [n.bytes_sent],
   d.bytes_recv ++ [n.bytes_recv], d.packets_sent ++ [n.packets_sent],
   d.packets_recv ++ [n.packets_recv], d.errin ++ [n.errin],
   d.errout ++ [n.errout], d.dropin ++ [n.dropin],
   d.dropout ++ [n.dropout]⟩

/-- Dict update performed for one net_stat: initialize the interface entry on
first sight (at the end of the dict, Python insertion order), then append the
row's values (lines 53-78). -/
def upsertStat (nd : List (String × IfaceSeries)) (t : String)
    (n : NetworkStats) : List (String × IfaceSeries) :=
  match nd with
  | [] => [(n.interface, appendStat emptyIfaceSeries t n)]
  | (k, v) :: rest =>
      if k = n.interface then (k, appendStat v t n) :: rest
      else (k, v) :: upsertStat rest t n

/-- Inner loop of load_data over one snapshot's network_stats list (lines
51-78); an empty list leaves the dict untouched, matching the truthiness
guard on line 51. -/
def processNetworkRow (nd : List (String × IfaceSeries)) (r : SnapRecord) :
    List (String × IfaceSeries) :=
  r.network_stats.foldl (fun acc n => upsertStat acc r.metric.timestamp n) nd

/-- Everything load_data accumulates: the timestamp sequence, one aligned
sequence per scalar field (datetime.fromisoformat is injective on the stored
strings, so timestamps stay strings here), and the per-interface dict.
Missing optional readings stay None in their sequences (lines 46-48). -/
structure LoadResult where
  timestamps : List String
  cpu_percent : List ℚ
  memory_percent : List ℚ
  disk_percent : List ℚ
  temperature : List (Option ℚ)
  cpu_frequency : List (Option ℚ)
  voltage : List (Option ℚ)
  network_data : List (String × IfaceSeries)
deriving DecidableEq

/-- Accumulator at the top of load_data (lines 24-34). -/
def emptyLoadResult : LoadResult := ⟨[], [], [], [], [], [], [], []⟩

/-- One iteration of the main loop of load_data (lines 37-78). -/
def loadStep (acc : LoadResult) (r : SnapRecord) : LoadResult :=
  ⟨acc.timestamps ++ [r.metric.timestamp],
   acc.cpu_percent ++ [r.metric.cpu_percent],
   acc.memory_percent ++ [r.metric.memory_percent],
   acc.disk_percent ++ [r.metric.disk_percent],
   acc.temperature ++ [r.metric.temperature],
   acc.cpu_frequency ++ [r.metric.cpu_frequency],
   acc.voltage ++ [r.metric.voltage],
   processNetworkRow acc.network_data r⟩

/-- Embedding of load_data (data_loader.py lines 8-90) applied to the rows a
timespan query returned. -/
def load_data (rows : List SnapRecord) : LoadResult :=
  rows.foldl loadStep emptyLoadResult

/-! ## Reshaper lemmas -/

/-- Appending a list of (timestamp, row) entries to an optional interface
entry, initializing it on first use — the shape the upsert loop produces. -/
def seriesExtendAll (o : Option IfaceSeries)
    (es : List (String × NetworkStats)) : Option IfaceSeries :=
  es.foldl (fun a p => some (appendStat (a.getD emptyIfaceSeries) p.1 p.2)) o

/-- All (parent timestamp, row) pairs for one interface, in snapshot order. -/
def ifaceEntries (s : String) (rows : List SnapRecord) :
    List (String × NetworkStats) :=
  rows.flatMap (fun r =>
    (r.network_stats.filter (fun n => n.interface == s)).map
      (fun n => (r.metric.timestamp, n)))

/-- Interface entry built from scratch out of a list of entries. -/
def seriesOfEntries (es : List (String × NetworkStats)) : IfaceSeries :=
  es.foldl (fun d p => appendStat d p.1 p.2) emptyIfaceSeries

/-- Lookup after one upsert: the upserted interface gains one appended entry
(initialized if new), every other key is untouched. -/
theorem alistLookup_upsertStat (nd : List (String × IfaceSeries)) (t : String)
    (n : NetworkStats) (s : String) :
    alistLookup s (upsertStat nd t n) =
      if n.interface = s then
        some (appendStat ((alistLookup s nd).getD emptyIfaceSeries) t n)
      else alistLookup s nd := by
  induction nd with
  | nil =>
      by_cases hs : n.interface = s
      · simp [upsertStat, alistLookup, hs]
      · simp [upsertStat, alistLookup, hs]
  | cons kv rest ih =>
      obtain ⟨k, v⟩ := kv
      by_cases hk : k = n.interface
      · by_cases hs : k = s
        · have hns : n.interface = s := hk.symm.trans hs
          simp [upsertStat, alistLookup, hk, hs, hns]
        · have hns : ¬ n.interface = s := fun h => hs (hk.trans h)
          simp [upsertStat, alistLookup, hk, hs, hns]
      · by_cases hs : k = s
        · have hsn : ¬ s = n.interface := fun h => hk (hs.trans h)
          have hns : ¬ n.interface = s := fun h => hsn h.symm
          simp [upsertStat, alistLookup, hk, hs, hns, hsn]
        · simp [upsertStat, alistLookup, hk, hs, ih]

/-- Lookup after the inner loop over one snapshot's network rows. -/
theorem alistLookup_processNetworkRow (r : SnapRecord)
    (nd : List (String × IfaceSeries)) (s : String) :
    alistLookup s (processNetworkRow nd r) =
      seriesExtendAll (alistLookup s nd)
        ((r.network_stats.filter (fun n => n.interface == s)).map
          (fun n => (r.metric.timestamp, n))) := by
  unfold processNetworkRow
  generalize r.network_stats = l
  induction l generalizing nd with
  | nil => rfl
  | cons n rest ih =>
      rw [List.foldl_cons, ih]
      by_cases hn : n.interface = s
      · have hb : (n.interface == s) = true := by simpa using hn
        have hfilt : List.filter (fun x => x.interface == s) (n :: rest) =
            n :: List.filter (fun x => x.interface == s) rest := by
          simp [List.filter_cons, hb]
        rw [hfilt, List.map_cons]
        rw [alistLookup_upsertStat, if_pos hn]
        rfl
      · have hb : (n.interface == s) = false := by simpa using hn
        have hfilt : List.filter (fun x => x.interface == s) (n :: rest) =
            List.filter (fun x => x.interface == s) rest := by
          simp [List.filter_cons, hb]
        rw [hfilt, alistLookup_upsertStat, if_neg hn]

/-- seriesExtendAll distributes over list append. -/
theorem seriesExtendAll_append (o : Option IfaceSeries)
    (es1 es2 : List (String × NetworkStats)) :
    seriesExtendAll o (es1 ++ es2) =
      seriesExtendAll (seriesExtendAll o es1) es2 :=
  List.foldl_append _ _ _ _

/-- Lookup after the whole load_data loop over the snapshot rows. -/
theorem alistLookup_foldl_processNetworkRow (rows : List SnapRecord)
    (nd : List (String × IfaceSeries)) (s : String) :
    alistLookup s (rows.foldl processNetworkRow nd) =
      seriesExtendAll (alistLookup s nd) (ifaceEntries s rows) := by
  induction rows generalizing nd with
  | nil => rfl
  | cons r rest ih =>
      rw [List.foldl_cons, ih, alistLookup_processNetworkRow]
      rw [show ifaceEntries s (r :: rest) =
        ((r.network_stats.filter (fun n => n.interface == s)).map
          (fun n => (r.metric.timestamp, n))) ++ ifaceEntries s rest from rfl]
      rw [seriesExtendAll_append]

/-- Extending a present entry folds the appends into it. -/
theorem seriesExtendAll_some (d : IfaceSeries)
    (es : List (String × NetworkStats)) :
    seriesExtendAll (some d) es =
      some (es.foldl (fun a p => appendStat a p.1 p.2) d) := by
  induction es generalizing d with
  | nil => rfl
  | cons p rest ih => rw [show seriesExtendAll (some d) (p :: rest) =
      seriesExtendAll (some (appendStat d p.1 p.2)) rest from rfl, ih]; rfl

/-- Extending the absent entry by a nonempty list creates it from scratch. -/
theorem seriesExtendAll_none_cons (p : String × NetworkStats)
    (es : List (String × NetworkStats)) :
    seriesExtendAll none (p :: es) = some (seriesOfEntries (p :: es)) := by
  rw [show seriesExtendAll none (p :: es) =
    seriesExtendAll (some (appendStat emptyIfaceSeries p.1 p.2)) es from rfl]
  rw [seriesExtendAll_some]
  rfl

/-- Folding entry appends writes each component as a map over the entries. -/
theorem foldl_appendStat (es : List (String × NetworkStats)) (d : IfaceSeries) :
    es.foldl (fun a p => appendStat a p.1 p.2) d =
      ⟨d.timestamps ++ es.map (fun p => p.1),
       d.bytes_sent ++ es.map (fun p => p.2.bytes_sent),
       d.bytes_recv ++ es.map (fun p => p.2.bytes_recv),
       d.packets_sent ++ es.map (fun p => p.2.packets_sent),
       d.packets_recv ++ es.map (fun p => p.2.packets_recv),
       d.errin ++ es.map (fun p => p.2.errin),
       d.errout ++ es.map (fun p => p.2.errout),
       d.dropin ++ es.map (fun p => p.2.dropin),
       d.dropout ++ es.map (fun p => p.2.dropout)⟩ := by
  induction es generalizing d with
  | nil => simp
  | cons p rest ih =>
      rw [List.foldl_cons, ih]
      simp [appendStat]

/-- The interface entry built from a list of entries, componentwise. -/
theorem seriesOfEntries_eq (es : List (String × NetworkStats)) :
    seriesOfEntries es =
      ⟨es.map (fun p => p.1),
       es.map (fun p => p.2.bytes_sent), es.map (fun p => p.2.bytes_recv),
       es.map (fun p => p.2.packets_sent), es.map (fun p => p.2.packets_recv),
       es.map (fun p => p.2.errin), es.map (fun p => p.2.errout),
       es.map (fun p => p.2.dropin), es.map (fun p => p.2.dropout)⟩ := by
  unfold seriesOfEntries
  rw [foldl_appendStat]
  rfl

/-- The load_data loop, componentwise: every scalar sequence is a map over
the rows and the network dict is the fold of the per-row upserts. -/
theorem foldl_loadStep (rows : List SnapRecord) (acc : LoadResult) :
    rows.foldl loadStep acc =
      ⟨acc.timestamps ++ rows.map (fun r => r.metric.timestamp),
       acc.cpu_percent ++ rows.map (fun r => r.metric.cpu_percent),
       acc.memory_percent ++ rows.map (fun r => r.metric.memory_percent),
       acc.disk_percent ++ rows.map (fun r => r.metric.disk_percent),
       acc.temperature ++ rows.map (fun r => r.metric.temperature),
       acc.cpu_frequency ++ rows.map (fun r => r.metric.cpu_frequency),
       acc.voltage ++ rows.map (fun r => r.metric.voltage),
       rows.foldl processNetworkRow acc.network_data⟩ := by
  induction rows generalizing acc with
  | nil => simp
  | cons r rest ih =>
      rw [List.foldl_cons, ih]
      simp [loadStep]

/-- Within one snapshot whose interfaces are pairwise distinct, the filter for
one interface keeps at most the first (hence only) match. -/
theorem filter_eq_find_toList {l : List NetworkStats} {s : String}
    (hl : (l.map (fun n => n.interface)).Nodup) :
    l.filter (fun n => n.interface == s) =
      (l.find? (fun n => n.interface == s)).toList := by
  induction l with
  | nil => rfl
  | cons n rest ih =>
      rw [List.map_cons, List.nodup_cons] at hl
      by_cases hb : (n.interface == s) = true
      · have hn : n.interface = s := by simpa using hb
        have hrest : rest.filter (fun x => x.interface == s) = [] := by
          rw [List.filter_eq_nil_iff]
          intro x hx hxs
          have hxi : x.interface = s := by simpa using hxs
          exact hl.1 (List.mem_map.mpr ⟨x, hx, by rw [hxi, hn]⟩)
        have hfc : List.filter (fun x => x.interface == s) (n :: rest) =
            n :: rest.filter (fun x => x.interface == s) := by
          simp [List.filter_cons, hb]
        have hfind : (n :: rest).find? (fun x => x.interface == s) = some n :=
          List.find?_cons_of_pos rest hb
        rw [hfc, hrest, hfind]
        rfl
      · have hfc : List.filter (fun x => x.interface == s) (n :: rest) =
            rest.filter (fun x => x.interface == s) := by
          simp [List.filter_cons, hb]
        have hfind : (n :: rest).find? (fun x => x.interface == s) =
            rest.find? (fun x => x.interface == s) :=
          List.find?_cons_of_neg rest (by simpa using hb)
        rw [hfc, hfind]
        exact ih hl.2

/-- With pairwise-distinct interfaces inside every snapshot, the entry list
for one interface has exactly one entry per snapshot containing it. -/
theorem ifaceEntries_eq_filterMap {rows : List SnapRecord} {s : String}
    (hnd : ∀ r ∈ rows, (r.network_stats.map (fun n => n.interface)).Nodup) :
    ifaceEntries s rows = rows.filterMap (fun r =>
      (r.network_stats.find? (fun n => n.interface == s)).map
        (fun n => (r.metric.timestamp, n))) := by
  induction rows with
  | nil => rfl
  | cons r rest ih =>
      have hr := hnd r (List.mem_cons_self r rest)
      have hrest := fun x hx => hnd x (List.mem_cons_of_mem r hx)
      rw [show ifaceEntries s (r :: rest) =
        ((r.network_stats.filter (fun n => n.interface == s)).map
          (fun n => (r.metric.timestamp, n))) ++ ifaceEntries s rest from rfl]
      rw [filter_eq_find_toList hr, ih hrest]
      cases hf : r.network_stats.find? (fun n => n.interface == s) with
      | none => simp [List.filterMap_cons, hf]
      | some n => simp [List.filterMap_cons, hf]

/-- Per snapshot, the projected timestamp of the optional entry is present
exactly when the snapshot contains the interface. -/
theorem find_entry_fst (pred : NetworkStats → Bool) (ns : List NetworkStats)
    (t : String) :
    ((ns.find? pred).map (fun n => (t, n))).map (fun q => q.1) =
      (if ns.any pred then some t else none) := by
  cases hf : ns.find? pred with
  | none =>
      have ha : ns.any pred = false := by
        cases hany : ns.any pred
        · rfl
        · rcases List.any_eq_true.mp hany with ⟨x, hx, hpx⟩
          exact absurd hpx (by simpa using List.find?_eq_none.mp hf x hx)
      simp [ha]
  | some n =>
      have ha : ns.any pred = true :=
        List.any_eq_true.mpr ⟨n, List.mem_of_find?_eq_some hf,
          List.find?_some hf⟩
      simp [ha]

/-- C6: load_data keeps every scalar series exactly as long as the timestamp
sequence and aligned to it by index, preserving absent optional values as
None; the interface dict holds exactly the interfaces appearing in at least
one returned snapshot; and (when interfaces are unique within each snapshot,
as log_metrics guarantees) each interface's sequences hold one aligned entry
per snapshot in which that interface appears, carrying that snapshot's
timestamp and that row's counters. -/
theorem C6_load_data (rows : List SnapRecord) (s : String)
    (hnd : ∀ r ∈ rows, (r.network_stats.map (fun n => n.interface)).Nodup) :
    (load_data rows).timestamps = rows.map (fun r => r.metric.timestamp) ∧
    (load_data rows).cpu_percent = rows.map (fun r => r.metric.cpu_percent) ∧
    (load_data rows).memory_percent =
      rows.map (fun r => r.metric.memory_percent) ∧
    (load_data rows).disk_percent = rows.map (fun r => r.metric.disk_percent) ∧
    (load_data rows).temperature = rows.map (fun r => r.metric.temperature) ∧
    (load_data rows).cpu_frequency =
      rows.map (fun r => r.metric.cpu_frequency) ∧
    (load_data rows).voltage = rows.map (fun r => r.metric.voltage) ∧
    ((alistLookup s (load_data rows).network_data).isSome ↔
      ∃ r ∈ rows, ∃ n ∈ r.network_stats, n.interface = s) ∧
    (∀ d, alistLookup s (load_data rows).network_data = some d →
      d.timestamps = rows.filterMap (fun r =>
        if r.network_stats.any (fun n => n.interface == s) then
          some r.metric.timestamp
        else none) ∧
      d.bytes_sent = rows.filterMap (fun r =>
        (r.network_stats.find? (fun n => n.interface == s)).map
          (fun n => n.bytes_sent)) ∧
      d.bytes_recv = rows.filterMap (fun r =>
        (r.network_stats.find? (fun n => n.interface == s)).map
          (fun n => n.bytes_recv)) ∧
      d.packets_sent = rows.filterMap (fun r =>
        (r.network_stats.find? (fun n => n.interface == s)).map
          (fun n => n.packets_sent)) ∧
      d.packets_recv = rows.filterMap (fun r =>
        (r.network_stats.find? (fun n => n.interface == s)).map
          (fun n => n.packets_recv)) ∧
      d.errin = rows.filterMap (fun r =>
        (r.network_stats.find? (fun n => n.interface == s)).map
          (fun n => n.errin)) ∧
      d.errout = rows.filterMap (fun r =>
        (r.network_stats.find? (fun n => n.interface == s)).map
          (fun n => n.errout)) ∧
      d.dropin = rows.filterMap (fun r =>
        (r.network_stats.find? (fun n => n.interface == s)).map
          (fun n => n.dropin)) ∧
      d.dropout = rows.filterMap (fun r =>
        (r.network_stats.find? (fun n => n.interface == s)).map
          (fun n => n.dropout))) := by
  have hload := foldl_loadStep rows emptyLoadResult
  have hnet : (load_data rows).network_data =
      rows.foldl processNetworkRow [] := by
    unfold load_data
    rw [hload]
    rfl
  have hlook : alistLookup s (load_data rows).network_data =
      seriesExtendAll none (ifaceEntries s rows) := by
    rw [hnet, alistLookup_foldl_processNetworkRow]
    rfl
  refine ⟨?_, ?_, ?_, ?_, ?_, ?_, ?_, ?_, ?_⟩
  · unfold load_data; rw [hload]; rfl
  · unfold load_data; rw [hload]; rfl
  · unfold load_data; rw [hload]; rfl
  · unfold load_data; rw [hload]; rfl
  · unfold load_data; rw [hload]; rfl
  · unfold load_data; rw [hload]; rfl
  · unfold load_data; rw [hload]; rfl
  · rw [hlook]
    cases hentries : ifaceEntries s rows with
    | nil =>
        constructor
        · intro h
          simp [seriesExtendAll] at h
        · rintro ⟨r, hr, n, hn, hi⟩
          have hq : (r.metric.timestamp, n) ∈ ifaceEntries s rows := by
            unfold ifaceEntries
            exact List.mem_flatMap.mpr ⟨r, hr, List.mem_map.mpr
              ⟨n, List.mem_filter.mpr ⟨hn, by simpa using hi⟩, rfl⟩⟩
          rw [hentries] at hq
          simp at hq
    | cons p tl =>
        constructor
        · intro _
          have hp : p ∈ ifaceEntries s rows := by
            rw [hentries]
            exact List.mem_cons_self p tl
          unfold ifaceEntries at hp
          rcases List.mem_flatMap.mp hp with ⟨r, hr, hin⟩
          rcases List.mem_map.mp hin with ⟨n, hnf, _⟩
          have hmem := List.mem_filter.mp hnf
          exact ⟨r, hr, n, hmem.1, by simpa using hmem.2⟩
        · intro _
          rw [seriesExtendAll_none_cons]
          rfl
  · intro d hd
    rw [hlook] at hd
    cases hentries : ifaceEntries s rows with
    | nil =>
        rw [hentries] at hd
        exact absurd hd (by simp [seriesExtendAll])
    | cons p tl =>
        rw [hentries, seriesExtendAll_none_cons] at hd
        have hdq : d = seriesOfEntries (p :: tl) := (Option.some_inj.mp hd).symm
        rw [hdq, seriesOfEntries_eq, ← hentries,
          ifaceEntries_eq_filterMap hnd]
        dsimp only
        refine ⟨?_, ?_, ?_, ?_, ?_, ?_, ?_, ?_, ?_⟩
        · rw [List.map_filterMap]
          congr 1
          funext r
          exact find_entry_fst _ _ _
        all_goals
          rw [List.map_filterMap]
          congr 1
          funext r
          rw [Option.map_map]
          rfl

/-- Snapshot row template for the five-snapshot reshape example. -/
def mrow (i : Nat) (t : String) : MetricRow :=
  ⟨i, t, 25, 40, 60, 3600, none, none, none⟩

/-- Network row template for the five-snapshot reshape example. -/
def nrow (i : Nat) (ifc : String) : NetworkStats :=
  ⟨i, ifc, 1, 2, 3, 4, 5, 6, 7, 8⟩

/-- Five snapshots: eth0 appears in snapshots 1, 3, 5 and wlan0 in 2, 4. -/
def rows5 : List SnapRecord :=
  [⟨mrow 1 "2023-01-01T00:00:00", [nrow 1 "eth0"]⟩,
   ⟨mrow 2 "2023-01-02T00:00:00", [nrow 2 "wlan0"]⟩,
   ⟨mrow 3 "2023-01-03T00:00:00", [nrow 3 "eth0"]⟩,
   ⟨mrow 4 "2023-01-04T00:00:00", [nrow 4 "wlan0"]⟩,
   ⟨mrow 5 "2023-01-05T00:00:00", [nrow 5 "eth0"]⟩]

/-- C6 witness: the theorem applied to the five-snapshot example; eth0's
timestamp sequence has one aligned entry per snapshot containing eth0, and
there are three such snapshots. -/
theorem C6_load_data_witness :
    (seriesOfEntries (ifaceEntries "eth0" rows5)).timestamps =
      rows5.filterMap (fun r =>
        if r.network_stats.any (fun n => n.interface == "eth0") then
          some r.metric.timestamp
        else none) ∧
    (seriesOfEntries (ifaceEntries "eth0" rows5)).timestamps.length = 3 := by
  constructor
  · exact ((C6_load_data rows5 "eth0" (by decide)).2.2.2.2.2.2.2.2
      (seriesOfEntries (ifaceEntries "eth0" rows5)) (by decide)).1
  · decide
